/-
  Verification development for the PDF_TO_TEXT repository
  (package `2_OpenCV_OCR`: `core_document_processing.py`,
  `core_document_generator.py`, `classify_image_type.py`, `ui.py`).

  Python strings are modelled as lists of characters (`Str := List Char`);
  text processing uses ASCII whitespace, matching the characters that
  Python str.strip and the regex class \s treat as whitespace on this
  input domain.  Remote model calls (the Gemini API) are modelled by
  oracles `Nat → Except Str Str` giving, per attempt number, either the
  message of a raised exception or the reply text.  Image decoding and
  OpenCV / pytesseract results are modelled by explicit outcome types
  carrying the data the source reads off them (edge maps, confidence
  lists, OCR text); a fraction such as the NumPy edge_density value is
  modelled with exact rational arithmetic.
-/
import Mathlib

set_option maxRecDepth 8000

namespace PdfToText

/-- Python strings, modelled as lists of characters. -/
abbrev Str := List Char

/-- The ASCII whitespace characters recognised by Python str.strip
and by the regex class \s: space, tab, newline, carriage return,
vertical tab, form feed. -/
def isPyWS (c : Char) : Bool :=
  c = ' ' || c = '\t' || c = '\n' || c = '\r' || c = Char.ofNat 11 || c = Char.ofNat 12

/-- Negation of `isPyWS`, used to count meaningful characters. -/
def notWS (c : Char) : Bool := !isPyWS c

/-- Remove leading whitespace (left half of Python `str.strip`). -/
def stripLeft (l : Str) : Str := l.dropWhile isPyWS

/-- Remove trailing whitespace (right half of Python `str.strip`). -/
def stripRight (l : Str) : Str := (l.reverse.dropWhile isPyWS).reverse

/-- Python `str.strip()`: remove whitespace from both ends. -/
def pyStrip (l : Str) : Str := stripRight (stripLeft l)

/-- Model of the meaningful-length computation in `extract_text_from_pdf`
(core_document_processing.py line 73): removing every whitespace
character with re.sub and taking the length, i.e. the number of
non-whitespace characters of the page text. -/
def meaningfulLen (l : Str) : Nat := (l.filter notWS).length

/-- What the re.sub call of `_clean_raw_text` emits for a maximal run of
`k` newlines: two newlines when the run matched (k ≥ 3), the run
unchanged otherwise. -/
def emitNl (k : Nat) : Str := if 3 ≤ k then ['\n', '\n'] else List.replicate k '\n'

/-- Scanner for the re.sub call of `_clean_raw_text`: `k` counts the
pending run of newlines already consumed. -/
def collapseGo : Nat → Str → Str
  | k, [] => emitNl k
  | k, c :: cs => if c = '\n' then collapseGo (k + 1) cs else emitNl k ++ c :: collapseGo 0 cs

/-- Model of the re.sub call of `_clean_raw_text`
(core_document_processing.py line 203): replace each run of three or
more newlines with exactly two newlines. -/
def collapseNewlines (l : Str) : Str := collapseGo 0 l

/-- `_clean_raw_text` (core_document_processing.py lines 200-206):
collapse runs of three or more newlines to two, then strip surrounding
whitespace. -/
def cleanRawText (l : Str) : Str := pyStrip (collapseNewlines l)

/-- A string with no three consecutive newline characters. -/
def noTriple : Str → Bool
  | a :: b :: c :: rest =>
    if a = '\n' ∧ b = '\n' ∧ c = '\n' then false else noTriple (b :: c :: rest)
  | _ => true

/-- One PDF page, as the source reads it through PyMuPDF: `rawText` is
the embedded text layer returned by page.get_text, and `renderedB64` is
the base64 PNG string obtained by rendering the page with get_pixmap and
b64encode (an opaque value in this model, deterministic per page). -/
structure Page where
  rawText : Str
  renderedB64 : Str
deriving DecidableEq

/-- The per-page body of the loop of `extract_text_from_pdf`
(core_document_processing.py lines 53-83): if the whitespace-free length
of the embedded text exceeds 250, return the stripped digital text and
no image; otherwise return no text and the rendered base64 image. -/
def pageTriple (n : Nat) (p : Page) : Nat × Option Str × Option Str :=
  if 250 < meaningfulLen p.rawText then (n, some (pyStrip p.rawText), none)
  else (n, none, some p.renderedB64)

/-- The page loop of `extract_text_from_pdf`, also recording which pages
were rendered with get_pixmap.  The source renders every page (line 62)
before the threshold check, so every page number enters the render
trace. -/
def extractGo (n : Nat) : List Page → List (Nat × Option Str × Option Str) × List Nat
  | [] => ([], [])
  | p :: rest =>
    let r := extractGo (n + 1) rest
    (pageTriple n p :: r.1, n :: r.2)

/-- Model of `extract_text_from_pdf` (core_document_processing.py lines
32-89) over an already-opened document (the PyMuPDF parse of the PDF
bytes is the external collaborator producing the `List Page`).  Returns
the per-page result triples together with the trace of rendered page
numbers. -/
def extractTextFromPdf (pages : List Page) : List (Nat × Option Str × Option Str) × List Nat :=
  extractGo 1 pages

/-- The edge-density value computed from a Canny edge map: the fraction
of pixels that are edges (value above zero), as an exact rational. -/
def edgeDensity (edgeMap : List Nat) : ℚ :=
  ((edgeMap.filter (fun v => decide (0 < v))).length : ℚ) / (edgeMap.length : ℚ)

/-- Outcome of decoding and processing an image with OpenCV, carrying
the data the classifier reads: `noDecode` models cv2.imdecode returning
None, `fail` models any exception raised inside the try block (with its
message), and `density` carries the Canny edge map of the successfully
decoded image. -/
inductive CvOutcome where
  | noDecode : CvOutcome
  | fail : Str → CvOutcome
  | density : List Nat → CvOutcome
deriving DecidableEq

/-- Model of `is_image_digital` in core_document_processing.py (lines
95-130), the classifier the main pipeline uses: when OpenCV or NumPy is
unavailable, when the bytes do not decode, or when any exception occurs,
it returns false (handwritten); otherwise it returns true (digital)
exactly when the edge density exceeds 0.01. -/
def is_image_digital (cvAvailable : Bool) (o : CvOutcome) : Bool :=
  if !cvAvailable then false
  else
    match o with
    | .noDecode => false
    | .fail _ => false
    | .density edgeMap => decide ((1 : ℚ) / 100 < edgeDensity edgeMap)

/-- Outcome of running pytesseract and OpenCV on an image inside a try
block: `fail` models any raised exception; `ok text confs edgeMap`
carries the OCR text from image_to_string, the confidence values kept
from image_to_data (those different from -1), and the Canny edge map. -/
inductive TessOutcome where
  | fail : Str → TessOutcome
  | ok : Str → List ℚ → List Nat → TessOutcome
deriving DecidableEq

/-- The mean of the confidence values, as an exact rational. -/
def avgConf (confs : List ℚ) : ℚ := confs.sum / (confs.length : ℚ)

/-- Model of `is_image_digital` in classify_image_type.py (lines 5-43):
on exception return false; on short OCR text (stripped length below 20)
or no confidence values return false; otherwise digital exactly when the
average confidence exceeds 55 and the edge density is below 0.12. -/
def is_image_digital_cit (o : TessOutcome) : Bool :=
  match o with
  | .fail _ => false
  | .ok text confs edgeMap =>
    if (pyStrip text).length < 20 then false
    else if confs = [] then false
    else decide (55 < avgConf confs ∧ edgeDensity edgeMap < 12 / 100)

/-- Model of `is_image_digital` in core_document_generator.py (lines
60-100): when cv2 or pytesseract is unavailable, or on any exception, it
returns true (digital); on short OCR text or no confidence values it
returns false; otherwise digital when the average confidence exceeds 80
or the edge density exceeds 0.005. -/
def is_image_digital_gen (libsAvailable : Bool) (o : TessOutcome) : Bool :=
  if !libsAvailable then true
  else
    match o with
    | .fail _ => true
    | .ok text confs edgeMap =>
      if (pyStrip text).length < 20 then false
      else if confs = [] then false
      else decide (80 < avgConf confs ∨ 5 / 1000 < edgeDensity edgeMap)

/-- A remote call behaviour: for each (1-based or 0-based, per caller)
attempt number, either the message of the exception the call raises or
the reply text it returns. -/
abbrev RemoteOracle := Nat → Except Str Str

/-- The retry loop of `extract_text_gemini` (core_document_processing.py
lines 173-194): attempts are 1-based, `fuel` is the number of attempts
still allowed including the current one.  On success the stripped reply
is returned; between failed attempts the source sleeps 2 seconds; after
the final failure it returns the empty string.  The result carries the
returned text, the number of attempts made, and the list of inter-attempt
delays in seconds. -/
def extractTextGeminiGo (oracle : RemoteOracle) : Nat → Nat → Str × Nat × List Nat
  | attempt, fuel + 1 =>
    match oracle attempt with
    | .ok t => (pyStrip t, attempt, [])
    | .error _ =>
      if fuel = 0 then ([], attempt, [])
      else
        let r := extractTextGeminiGo oracle (attempt + 1) fuel
        (r.1, r.2.1, 2 :: r.2.2)
  | _, 0 => ([], 0, [])

/-- Model of `extract_text_gemini` (core_document_processing.py lines
145-194): with a missing API key it returns the empty string without
calling the remote service; otherwise it runs the retry loop with
max_retries = 3. -/
def extract_text_gemini (oracle : RemoteOracle) (apiKey : Str) : Str × Nat × List Nat :=
  if apiKey = [] then ([], 0, []) else extractTextGeminiGo oracle 1 3

/-- The error message `clean_with_gemini` returns when the API key is
missing. -/
def apiKeyMissingMsg : Str := ("[ERROR] API Key is missing for cleaning step.").data

/-- The prefix of the error message `clean_with_gemini` returns after
exhausting its retries (the f-string with max_retries = 3; the raised
exception text is appended). -/
def cleanFailMsgPre : Str := ("[ERROR] Gemini cleaning failed after 3 attempts: ").data

/-- The retry loop of `clean_with_gemini` (core_document_processing.py
lines 243-270): attempts are 1-based, the delay starts at 1 second and
doubles after each failure, and after the final failure an error string
tagged with the bracketed ERROR marker is returned.  The result carries
the returned text, the number of attempts made, and the list of
inter-attempt delays in seconds. -/
def cleanWithGeminiGo (oracle : RemoteOracle) : Nat → Nat → Nat → Str × Nat × List Nat
  | attempt, delay, fuel + 1 =>
    match oracle attempt with
    | .ok t => (pyStrip t, attempt, [])
    | .error e =>
      if fuel = 0 then (cleanFailMsgPre ++ e, attempt, [])
      else
        let r := cleanWithGeminiGo oracle (attempt + 1) (delay * 2) fuel
        (r.1, r.2.1, delay :: r.2.2)
  | _, _, 0 => ([], 0, [])

/-- Model of `clean_with_gemini` (core_document_processing.py lines
208-270): with a missing API key it returns the API-key error message;
otherwise it runs the retry loop with max_retries = 3 and initial
delay 1. -/
def clean_with_gemini (oracle : RemoteOracle) (apiKey : Str) : Str × Nat × List Nat :=
  if apiKey = [] then (apiKeyMissingMsg, 0, []) else cleanWithGeminiGo oracle 1 1 3

/-- The code-fence marker stripped by `get_ai_response`. -/
def fenceStr : Str := ("```").data

/-- The json code-fence marker stripped by `get_ai_response`. -/
def fenceJsonStr : Str := ("```json").data

/-- Python str.replace with an empty replacement: remove every
non-overlapping occurrence of `pat`, scanning left to right.  Only used
with a non-empty pattern; for the empty pattern it returns the input
unchanged. -/
def removeAll (pat : Str) (l : Str) : Str :=
  if hp : pat = [] then l
  else if hpre : pat.isPrefixOf l then removeAll pat (l.drop pat.length)
  else
    match l with
    | [] => []
    | c :: cs => c :: removeAll pat cs
termination_by l.length
decreasing_by
  · have hle : pat.length ≤ l.length := ( List.isPrefixOf_iff_prefix.mp hpre).length_le
    have h0 : 0 < pat.length := List.length_pos.mpr hp
    simp only [List.length_drop]
    omega
  · simp

/-- The wrapping cleanup of `get_ai_response`
(core_document_generator.py lines 358-361): if the (already stripped)
text starts with a json code fence, remove the json fence marker and all
fence markers and strip again; otherwise if it starts with a plain code
fence, remove all fence markers and strip again; otherwise leave it
unchanged. -/
def cleanFenceWrap (t : Str) : Str :=
  if fenceJsonStr.isPrefixOf t then pyStrip (removeAll fenceStr (removeAll fenceJsonStr t))
  else if fenceStr.isPrefixOf t then pyStrip (removeAll fenceStr t)
  else t

/-- The retry loop of `get_ai_response` (core_document_generator.py
lines 341-369): attempts are 0-based (range over max_retries), the delay
after a failed attempt is 2 ^ attempt seconds, on success the stripped
and fence-cleaned text is returned with no error, and after the final
failure an error message is returned.  The result carries the returned
(text, error) pair, the number of attempts made, and the delays. -/
def getAiGo (oracle : RemoteOracle) : Nat → Nat → (Option Str × Option Str) × Nat × List Nat
  | attempt, fuel + 1 =>
    match oracle attempt with
    | .ok t => ((some (cleanFenceWrap (pyStrip t)), none), attempt + 1, [])
    | .error e =>
      if fuel = 0 then
        ((none, some (("Error connecting to AI after multiple retries: ").data ++ e)),
          attempt + 1, [])
      else
        let r := getAiGo oracle (attempt + 1) fuel
        (r.1, r.2.1, 2 ^ attempt :: r.2.2)
  | _, 0 => ((none, some (("Failed to get AI response.").data)), 0, [])

/-- Model of `get_ai_response` (core_document_generator.py lines
330-371): with a missing API key it fails fast with an error message and
no remote call; otherwise it runs the retry loop with max_retries = 3. -/
def get_ai_response (oracle : RemoteOracle) (apiKey : Str) :
    (Option Str × Option Str) × Nat × List Nat :=
  if apiKey = [] then ((none, some (("API Key is missing.").data)), 0, [])
  else getAiGo oracle 0 3

/-- Model of `update_structure` (core_document_generator.py lines
401-415): it builds a prompt from the current JSON and the user
instruction and delegates to `get_ai_response`.  The prompt is consumed
by the remote model, which the oracle abstracts, so the reply depends
only on the oracle here. -/
def update_structure (oracle : RemoteOracle) (_currentJson _userInstruction
    _systemInstruction : Str) (apiKey : Str) : (Option Str × Option Str) × Nat × List Nat :=
  get_ai_response oracle apiKey

/-- The number of required positional parameters of `update_structure`
(core_document_generator.py line 401): current_json, user_instruction,
system_instruction, api_key - none has a default value. -/
def updateStructureParamCount : Nat := 4

/-- The number of positional arguments `run_blueprint_update` passes to
`update_structure` at ui.py lines 209-213: api_key,
st.session_state.blueprint_json, user_instruction. -/
def runBlueprintUpdateArgCount : Nat := 3

/-- Python positional-argument binding for a callee none of whose
parameters has a default value: the call binds, and the callee body
runs, exactly when the number of arguments equals the number of
parameters; otherwise the call raises TypeError before the callee body
executes. -/
def pyPositionalCallBinds (paramCount argCount : Nat) : Bool :=
  paramCount == argCount

/-- The uncaught exception raised by the `update_structure` call of
ui.py lines 209-213: binding 3 positional arguments to 4 required
parameters fails, so Python reports a missing positional argument. -/
def updateStructureTypeErrorMsg : Str :=
  ("TypeError: update_structure() missing 1 required positional argument: api_key").data

/-- Outcome of one run of the `run_blueprint_update` callback: either an
exception propagates uncaught out of the callback, leaving the stored
blueprint untouched, or the callback completes normally with the new
stored blueprint and the error message shown to the user, if any. -/
inductive UiOutcome where
  | uncaught : Str → UiOutcome
  | handled : Str → Option Str → UiOutcome
deriving DecidableEq

/-- The reply handling written at ui.py lines 215-227: on an error from
the call, keep the blueprint and show the update error; otherwise parse
the reply with json.loads (`parse`, returning none on a
json.JSONDecodeError), store the json.dumps re-serialisation (`dumps`)
on success, and on a parse failure store the raw reply (line 226,
keeping the raw output for debugging) while showing the invalid-JSON
error.  This code is present in the source but unreachable in the
program, because the call that would produce `resp` never binds; see
`run_blueprint_update`. -/
def blueprintReplyHandling {J : Type} (parse : Str → Option J) (dumps : J → Str)
    (blueprint : Str) (resp : Option Str × Option Str) : Str × Option Str :=
  match resp with
  | (_, some e) => (blueprint, some (("Blueprint Update Error: ").data ++ e))
  | (updated, none) =>
    let updatedJson := updated.getD []
    match parse updatedJson with
    | some p => (dumps p, none)
    | none =>
      (updatedJson,
        some (("Gemini returned invalid JSON. Please re-run or edit manually.").data))

/-- Model of `run_blueprint_update` (ui.py lines 198-227) as executed:
after the empty-blueprint guard, lines 209-213 call `update_structure`
with 3 positional arguments while the callee declares 4 required
parameters, so the call raises TypeError before any remote call is
made; nothing in the callback catches it, so the callback aborts with
the exception and the stored blueprint keeps its previous value.  The
`resp` argument is the (updated_json, error) pair the call would
return if it bound; it feeds the reply handling of lines 215-227,
which is guarded by the binding check and therefore unreachable, and
every reachable path ignores it. -/
def run_blueprint_update {J : Type} (parse : Str → Option J) (dumps : J → Str)
    (blueprint : Str) (resp : Option Str × Option Str) : UiOutcome :=
  if blueprint = [] then
    .handled blueprint (some (("Cannot update blueprint: No blueprint exists.").data))
  else if pyPositionalCallBinds updateStructureParamCount runBlueprintUpdateArgCount then
    .handled (blueprintReplyHandling parse dumps blueprint resp).1
      (blueprintReplyHandling parse dumps blueprint resp).2
  else
    .uncaught updateStructureTypeErrorMsg

/-- Python truthiness of an optional string: false for None and for the
empty string. -/
def truthyOpt (o : Option Str) : Bool :=
  match o with
  | none => false
  | some s => !s.isEmpty

/-- The page separator the pipeline joins page texts with
(core_document_processing.py line 284). -/
def pageSeparator : Str := ("\n\n---\n\n").data

/-- Python str.join: concatenate the parts with the separator between
consecutive parts only. -/
def joinSep (sep : Str) : List Str → Str
  | [] => []
  | [t] => t
  | t :: rest => t ++ sep ++ joinSep sep rest

/-- The per-page content computed by the loop of
`process_document_to_cleaned_text` (core_document_processing.py lines
288-312): digital text is stripped and used directly; otherwise, with an
image present and an API key available, the image classifier is
consulted and Gemini OCR runs (the source calls `extract_text_gemini`
in both branches of the classification); with no API key the page is
skipped.  `decodeOf` gives the OpenCV outcome of decoding the rendered
image of each page, and `ocrOracle` the remote OCR behaviour per page. -/
def contentOf (apiKey : Str) (decodeOf : Nat → CvOutcome) (ocrOracle : Nat → RemoteOracle)
    (pd : Nat × Option Str × Option Str) : Str :=
  if truthyOpt pd.2.1 then pyStrip (pd.2.1.getD [])
  else if truthyOpt pd.2.2 then
    if apiKey = [] then []
    else
      pyStrip (if is_image_digital true (decodeOf pd.1)
        then (extract_text_gemini (ocrOracle pd.1) apiKey).1
        else (extract_text_gemini (ocrOracle pd.1) apiKey).1)
  else []

/-- Whether the loop of `process_document_to_cleaned_text` invokes
remote OCR for the given page triple: only when there is no usable
digital text, an image is present, and the API key is available. -/
def ocrInvoked (apiKey : Str) (pd : Nat × Option Str × Option Str) : Bool :=
  !truthyOpt pd.2.1 && truthyOpt pd.2.2 && !apiKey.isEmpty

/-- The page loop of `process_document_to_cleaned_text`: collects the
non-empty page contents in order and the trace of pages for which remote
OCR was invoked. -/
def pipeGo (apiKey : Str) (decodeOf : Nat → CvOutcome) (ocrOracle : Nat → RemoteOracle) :
    List (Nat × Option Str × Option Str) → List Str × List Nat
  | [] => ([], [])
  | pd :: rest =>
    let content := contentOf apiKey decodeOf ocrOracle pd
    let r := pipeGo apiKey decodeOf ocrOracle rest
    ((if content.isEmpty then r.1 else content :: r.1),
      (if ocrInvoked apiKey pd then pd.1 :: r.2 else r.2))

/-- The ordered list of non-empty page contents the pipeline accumulates
before combining (raw_text_pages in the source). -/
def pagesContents (pages : List Page) (apiKey : Str) (decodeOf : Nat → CvOutcome)
    (ocrOracle : Nat → RemoteOracle) : List Str :=
  (pipeGo apiKey decodeOf ocrOracle (extractTextFromPdf pages).1).1

/-- Result of the pipeline, instrumented with the call traces the claims
are about: the returned (text, error) pair, the payloads passed to
`clean_with_gemini`, and the pages for which remote OCR was invoked. -/
structure PipeResult where
  text : Option Str
  errMsg : Option Str
  cleanerPayloads : List Str
  ocrPages : List Nat
deriving DecidableEq

/-- The document-level error message for the no-text case
(core_document_processing.py line 327). -/
def noTextErrMsg : Str :=
  ("[ERROR] Could not extract any text from the document. The document may be empty, or OCR failed on all pages.").data

/-- The in-band error marker the pipeline checks with startswith
(core_document_processing.py line 333). -/
def errTag : Str := ("[ERROR]").data

/-- Model of `process_document_to_cleaned_text`
(core_document_processing.py lines 276-336): extract pages, build the
non-empty page contents, join them with the page separator, normalise
with `_clean_raw_text`, fail with a document-level error when nothing
remains, otherwise send the combined text to `clean_with_gemini` once
and fail exactly when the returned string starts with the bracketed
ERROR marker. -/
def process_document_to_cleaned_text (pages : List Page) (apiKey : Str)
    (decodeOf : Nat → CvOutcome) (ocrOracle : Nat → RemoteOracle)
    (cleanOracle : RemoteOracle) : PipeResult :=
  let pd := (extractTextFromPdf pages).1
  let folded := pipeGo apiKey decodeOf ocrOracle pd
  let rawCombined := cleanRawText (joinSep pageSeparator folded.1)
  if pyStrip rawCombined = [] then
    ⟨none, some noTextErrMsg, [], folded.2⟩
  else
    let cleaned := (clean_with_gemini cleanOracle apiKey).1
    if errTag.isPrefixOf cleaned then ⟨none, some cleaned, [rawCombined], folded.2⟩
    else ⟨some cleaned, none, [rawCombined], folded.2⟩

theorem noTriple_tail {a : Char} : ∀ {t : Str}, noTriple (a :: t) = true → noTriple t = true
  | [], _ => rfl
  | [_], _ => rfl
  | b :: c :: r, h => by
    by_cases hif : a = '\n' ∧ b = '\n' ∧ c = '\n'
    · simp only [noTriple, if_pos hif] at h
      exact absurd h (by simp)
    · simp only [noTriple, if_neg hif] at h
      exact h

theorem noTriple_append_right : ∀ (l m : Str), noTriple (l ++ m) = true → noTriple m = true
  | [], _, h => h
  | _ :: l, m, h => noTriple_append_right l m (noTriple_tail h)

theorem noTriple_append_left : ∀ (l m : Str), noTriple (l ++ m) = true → noTriple l = true
  | [], _, _ => rfl
  | [_], _, _ => rfl
  | [_, _], _, _ => rfl
  | a :: b :: c :: r, m, h => by
    by_cases hif : a = '\n' ∧ b = '\n' ∧ c = '\n'
    · simp only [List.cons_append, noTriple, if_pos hif] at h
      exact absurd h (by simp)
    · simp only [List.cons_append, noTriple, if_neg hif] at h ⊢
      exact noTriple_append_left (b :: c :: r) m h

theorem noTriple_cons_of_ne {c : Char} (hc : ¬ c = '\n') :
    ∀ {l : Str}, noTriple l = true → noTriple (c :: l) = true
  | [], _ => rfl
  | [_], _ => rfl
  | b :: d :: r, h => by
    have hif : ¬ (c = '\n' ∧ b = '\n' ∧ d = '\n') := fun hh => hc hh.1
    simp only [noTriple, if_neg hif]
    exact h

theorem noTriple_nl_cons {c : Char} (hc : ¬ c = '\n') :
    ∀ {l : Str}, noTriple (c :: l) = true → noTriple ('\n' :: c :: l) = true
  | [], _ => rfl
  | d :: r, h => by
    simp only [noTriple]
    rw [if_neg (by simp [hc])]
    exact h

theorem noTriple_nl_nl_cons {c : Char} (hc : ¬ c = '\n') {l : Str}
    (h : noTriple (c :: l) = true) : noTriple ('\n' :: '\n' :: c :: l) = true := by
  simp only [noTriple]
  rw [if_neg (by simp [hc])]
  exact noTriple_nl_cons hc h

theorem emitNl_cases (k : Nat) :
    emitNl k = [] ∨ emitNl k = ['\n'] ∨ emitNl k = ['\n', '\n'] := by
  match k with
  | 0 => exact Or.inl rfl
  | 1 => exact Or.inr (Or.inl rfl)
  | 2 => exact Or.inr (Or.inr rfl)
  | k + 3 => exact Or.inr (Or.inr (by simp [emitNl, if_pos (by omega : 3 ≤ k + 3)]))

theorem noTriple_emit (k : Nat) : noTriple (emitNl k) = true := by
  rcases emitNl_cases k with h | h | h <;> rw [h] <;> rfl

theorem noTriple_emit_append {c : Char} (k : Nat) (hc : ¬ c = '\n') {l : Str}
    (h : noTriple (c :: l) = true) : noTriple (emitNl k ++ c :: l) = true := by
  rcases emitNl_cases k with he | he | he <;> rw [he]
  · exact h
  · exact noTriple_nl_cons hc h
  · exact noTriple_nl_nl_cons hc h

theorem noTriple_collapseGo (l : Str) : ∀ k, noTriple (collapseGo k l) = true := by
  induction l with
  | nil => intro k; exact noTriple_emit k
  | cons c cs ih =>
    intro k
    by_cases hc : c = '\n'
    · simp only [collapseGo, if_pos hc]
      exact ih (k + 1)
    · simp only [collapseGo, if_neg hc]
      exact noTriple_emit_append k hc (noTriple_cons_of_ne hc (ih 0))

theorem noTriple_replicate_lt (k : Nat)
    (h : noTriple (List.replicate k '\n') = true) : k < 3 := by
  match k with
  | 0 => omega
  | 1 => omega
  | 2 => omega
  | m + 3 =>
    exfalso
    simp [List.replicate, noTriple] at h

theorem replicate_nl_snoc (k : Nat) (l : Str) :
    List.replicate k '\n' ++ '\n' :: l = List.replicate (k + 1) '\n' ++ l := by
  rw [List.replicate_succ']
  simp

theorem collapseGo_of_noTriple :
    ∀ (l : Str) (k : Nat), noTriple (List.replicate k '\n' ++ l) = true →
      collapseGo k l = List.replicate k '\n' ++ l
  | [], k, h => by
    have hk : k < 3 := noTriple_replicate_lt k (by simpa using h)
    simp [collapseGo, emitNl, if_neg (by omega : ¬ 3 ≤ k)]
  | c :: cs, k, h => by
    by_cases hc : c = '\n'
    · subst hc
      rw [replicate_nl_snoc] at h
      have e : collapseGo k ('\n' :: cs) = collapseGo (k + 1) cs := by simp [collapseGo]
      rw [e, collapseGo_of_noTriple cs (k + 1) h, replicate_nl_snoc]
    · have hl : noTriple (c :: cs) = true := noTriple_append_right _ _ h
      have hk : k < 3 := noTriple_replicate_lt k (noTriple_append_left _ _ h)
      have hcs : noTriple cs = true := noTriple_tail hl
      simp only [collapseGo, if_neg hc]
      rw [collapseGo_of_noTriple cs 0 (by simpa using hcs)]
      simp [emitNl, if_neg (by omega : ¬ 3 ≤ k)]

theorem collapseNewlines_of_noTriple {l : Str} (h : noTriple l = true) :
    collapseNewlines l = l := by
  have := collapseGo_of_noTriple l 0 (by simpa using h)
  simpa [collapseNewlines] using this

theorem dropWhile_head_not {p : Char → Bool} :
    ∀ (l : Str) {c : Char} {t : Str}, List.dropWhile p l = c :: t → p c = false
  | [], _, _, h => by simp [List.dropWhile] at h
  | a :: r, c, t, h => by
    by_cases hp : p a
    · rw [List.dropWhile_cons, if_pos hp] at h
      exact dropWhile_head_not r h
    · rw [List.dropWhile_cons, if_neg hp] at h
      cases h
      exact Bool.eq_false_iff.mpr hp

theorem dropWhile_idem {p : Char → Bool} (l : Str) :
    (l.dropWhile p).dropWhile p = l.dropWhile p := by
  cases h : l.dropWhile p with
  | nil => rfl
  | cons c t =>
    have hc := dropWhile_head_not (p := p) l h
    rw [List.dropWhile_cons, if_neg (by simp [hc])]

theorem stripRight_append (l : Str) :
    ∃ t, l = stripRight l ++ t ∧ ∀ c ∈ t, isPyWS c = true := by
  refine ⟨(l.reverse.takeWhile isPyWS).reverse, ?_, ?_⟩
  · conv_lhs => rw [← l.reverse_reverse,
      ← List.takeWhile_append_dropWhile (p := isPyWS) (l := l.reverse)]
    rw [List.reverse_append]
    rfl
  · intro c hc
    rw [List.mem_reverse] at hc
    exact List.mem_takeWhile_imp hc

theorem noTriple_stripLeft {l : Str} (h : noTriple l = true) :
    noTriple (stripLeft l) = true := by
  refine noTriple_append_right (l.takeWhile isPyWS) (stripLeft l) ?_
  unfold stripLeft
  rw [List.takeWhile_append_dropWhile]
  exact h

theorem noTriple_stripRight {l : Str} (h : noTriple l = true) :
    noTriple (stripRight l) = true := by
  obtain ⟨t, hl, -⟩ := stripRight_append l
  exact noTriple_append_left _ _ (hl ▸ h)

theorem pyStrip_head_not_ws {l : Str} {c : Char} {t : Str}
    (h : pyStrip l = c :: t) : isPyWS c = false := by
  unfold pyStrip at h
  obtain ⟨u, hu, -⟩ := stripRight_append (stripLeft l)
  rw [h] at hu
  exact dropWhile_head_not (p := isPyWS) l (by simpa [stripLeft] using hu)

theorem stripLeft_pyStrip (l : Str) : stripLeft (pyStrip l) = pyStrip l := by
  cases h : pyStrip l with
  | nil => simp [stripLeft]
  | cons c t =>
    have hc := pyStrip_head_not_ws h
    simp [stripLeft, List.dropWhile_cons, hc]

theorem stripRight_idem (l : Str) : stripRight (stripRight l) = stripRight l := by
  unfold stripRight
  rw [List.reverse_reverse, dropWhile_idem]

theorem pyStrip_idem (l : Str) : pyStrip (pyStrip l) = pyStrip l := by
  show stripRight (stripLeft (pyStrip l)) = pyStrip l
  rw [stripLeft_pyStrip]
  show stripRight (stripRight (stripLeft l)) = _
  rw [stripRight_idem]
  rfl

theorem filter_stripLeft (l : Str) : (stripLeft l).filter notWS = l.filter notWS := by
  conv_rhs => rw [← List.takeWhile_append_dropWhile (p := isPyWS) (l := l)]
  rw [List.filter_append]
  have : (l.takeWhile isPyWS).filter notWS = [] := by
    rw [List.filter_eq_nil_iff]
    intro c hc
    have := List.mem_takeWhile_imp hc
    simp [notWS, this]
  rw [this, List.nil_append]
  rfl

theorem filter_stripRight (l : Str) : (stripRight l).filter notWS = l.filter notWS := by
  obtain ⟨t, hl, ht⟩ := stripRight_append l
  conv_rhs => rw [hl]
  rw [List.filter_append]
  have : t.filter notWS = [] := by
    rw [List.filter_eq_nil_iff]
    intro c hc
    simp [notWS, ht c hc]
  rw [this, List.append_nil]

theorem filter_pyStrip (l : Str) : (pyStrip l).filter notWS = l.filter notWS := by
  unfold pyStrip
  rw [filter_stripRight, filter_stripLeft]

theorem filter_emitNl (k : Nat) : (emitNl k).filter notWS = [] := by
  rcases emitNl_cases k with h | h | h <;> rw [h] <;> rfl

theorem filter_collapseGo : ∀ (l : Str) (k : Nat),
    (collapseGo k l).filter notWS = l.filter notWS
  | [], k => by simp [collapseGo, filter_emitNl]
  | c :: cs, k => by
    by_cases hc : c = '\n'
    · subst hc
      have e : collapseGo k ('\n' :: cs) = collapseGo (k + 1) cs := by simp [collapseGo]
      rw [e, filter_collapseGo cs (k + 1), List.filter_cons]
      simp [notWS, isPyWS]
    · simp only [collapseGo, if_neg hc]
      rw [List.filter_append, filter_emitNl, List.nil_append,
        List.filter_cons, List.filter_cons, filter_collapseGo cs 0]

theorem filter_cleanRawText (l : Str) :
    (cleanRawText l).filter notWS = l.filter notWS := by
  unfold cleanRawText collapseNewlines
  rw [filter_pyStrip, filter_collapseGo]

theorem pyStrip_ne_nil {l : Str} (h : l.filter notWS ≠ []) : pyStrip l ≠ [] := by
  intro h0
  apply h
  have := filter_pyStrip l
  rw [h0] at this
  exact this.symm

theorem pyStrip_cleanRawText (l : Str) : pyStrip (cleanRawText l) = cleanRawText l := by
  unfold cleanRawText
  exact pyStrip_idem _

theorem extractGo_length : ∀ (ps : List Page) (n : Nat), (extractGo n ps).1.length = ps.length
  | [], _ => rfl
  | _ :: rest, n => by simp [extractGo, extractGo_length rest (n + 1)]

theorem extractGo_rendered : ∀ (ps : List Page) (n : Nat),
    (extractGo n ps).2 = List.range' n ps.length
  | [], _ => rfl
  | _ :: rest, n => by
    simp [extractGo, extractGo_rendered rest (n + 1), List.range'_succ]

theorem pageTriple_fst (n : Nat) (p : Page) : (pageTriple n p).1 = n := by
  unfold pageTriple
  split <;> rfl

theorem extractGo_get : ∀ (ps : List Page) (n i : Nat) (p : Page),
    ps[i]? = some p → (extractGo n ps).1[i]? = some (pageTriple (n + i) p)
  | [], _, i, _, h => by simp at h
  | p0 :: rest, n, 0, p, h => by
    simp only [List.getElem?_cons_zero, Option.some.injEq] at h
    subst h
    simp [extractGo]
  | p0 :: rest, n, i + 1, p, h => by
    simp only [List.getElem?_cons_succ] at h
    have hrec := extractGo_get rest (n + 1) i p h
    simp only [extractGo, List.getElem?_cons_succ]
    rw [show n + (i + 1) = n + 1 + i from by omega]
    exact hrec

theorem extractGo_mem : ∀ (ps : List Page) (n : Nat) (tr : Nat × Option Str × Option Str),
    tr ∈ (extractGo n ps).1 → ∃ j p, ps[j]? = some p ∧ tr = pageTriple (n + j) p
  | [], _, tr, h => by simp [extractGo] at h
  | p0 :: rest, n, tr, h => by
    simp only [extractGo, List.mem_cons] at h
    rcases h with h | h
    · exact ⟨0, p0, by simp, by simpa using h⟩
    · obtain ⟨j, p, hj, htr⟩ := extractGo_mem rest (n + 1) tr h
      refine ⟨j + 1, p, by simpa using hj, ?_⟩
      rw [htr, show n + (j + 1) = n + 1 + j from by omega]

theorem pipeGo_texts (key : Str) (decodeOf : Nat → CvOutcome) (oo : Nat → RemoteOracle) :
    ∀ (pd : List (Nat × Option Str × Option Str)),
      (pipeGo key decodeOf oo pd).1 =
        (pd.map (contentOf key decodeOf oo)).filter (fun t => !t.isEmpty)
  | [] => rfl
  | t0 :: rest => by
    simp only [pipeGo, List.map_cons, List.filter_cons]
    rw [pipeGo_texts key decodeOf oo rest]
    by_cases h : (contentOf key decodeOf oo t0).isEmpty
    · simp [h]
    · simp [h]

theorem pipeGo_ocr_mem (key : Str) (decodeOf : Nat → CvOutcome) (oo : Nat → RemoteOracle) :
    ∀ (pd : List (Nat × Option Str × Option Str)) (m : Nat),
      m ∈ (pipeGo key decodeOf oo pd).2 →
        ∃ tr ∈ pd, tr.1 = m ∧ truthyOpt tr.2.1 = false
  | [], m, h => by simp [pipeGo] at h
  | t0 :: rest, m, h => by
    simp only [pipeGo] at h
    by_cases hin : ocrInvoked key t0
    · rw [if_pos hin] at h
      rcases List.mem_cons.mp h with h | h
      · refine ⟨t0, List.mem_cons_self t0 rest, h.symm, ?_⟩
        unfold ocrInvoked at hin
        simp only [Bool.and_eq_true, Bool.not_eq_true'] at hin
        exact hin.1.1
      · obtain ⟨tr, htr, h1, h2⟩ := pipeGo_ocr_mem key decodeOf oo rest m h
        exact ⟨tr, List.mem_cons_of_mem _ htr, h1, h2⟩
    · rw [if_neg hin] at h
      obtain ⟨tr, htr, h1, h2⟩ := pipeGo_ocr_mem key decodeOf oo rest m h
      exact ⟨tr, List.mem_cons_of_mem _ htr, h1, h2⟩

theorem contentOf_cases (key : Str) (decodeOf : Nat → CvOutcome) (oo : Nat → RemoteOracle)
    (pd : Nat × Option Str × Option Str) :
    contentOf key decodeOf oo pd = [] ∨ ∃ s, contentOf key decodeOf oo pd = pyStrip s := by
  unfold contentOf
  split_ifs <;> first | exact Or.inl rfl | exact Or.inr ⟨_, rfl⟩

theorem combined_ne_nil {texts : List Str}
    (hall : ∀ t ∈ texts, t ≠ [] ∧ ∃ s, t = pyStrip s) (hne : texts ≠ []) :
    cleanRawText (joinSep pageSeparator texts) ≠ [] := by
  obtain ⟨t0, rest, rfl⟩ : ∃ t0 rest, texts = t0 :: rest := by
    cases texts with
    | nil => exact absurd rfl hne
    | cons a b => exact ⟨a, b, rfl⟩
  obtain ⟨hne0, s, hs⟩ := hall t0 (List.mem_cons_self t0 rest)
  obtain ⟨c, t1, hct⟩ : ∃ c t1, t0 = c :: t1 := by
    cases t0 with
    | nil => exact absurd rfl hne0
    | cons a b => exact ⟨a, b, rfl⟩
  have hws : isPyWS c = false := pyStrip_head_not_ws (l := s) (by rw [← hs, hct])
  have hcmem : c ∈ joinSep pageSeparator (t0 :: rest) := by
    cases rest with
    | nil => simp [joinSep, hct]
    | cons r rs => simp [joinSep, hct]
  have hfil : c ∈ (joinSep pageSeparator (t0 :: rest)).filter notWS :=
    List.mem_filter.mpr ⟨hcmem, by simp [notWS, hws]⟩
  intro h0
  have hft := filter_cleanRawText (joinSep pageSeparator (t0 :: rest))
  rw [h0] at hft
  rw [← hft] at hfil
  simp at hfil

theorem stripCombined_eq_nil_iff (key : Str) (decodeOf : Nat → CvOutcome)
    (oo : Nat → RemoteOracle) (pd : List (Nat × Option Str × Option Str)) :
    pyStrip (cleanRawText (joinSep pageSeparator (pipeGo key decodeOf oo pd).1)) = [] ↔
      (pipeGo key decodeOf oo pd).1 = [] := by
  rw [pyStrip_cleanRawText]
  constructor
  · intro h
    by_contra hne
    refine combined_ne_nil ?_ hne h
    intro t ht
    rw [pipeGo_texts] at ht
    obtain ⟨hmem, hcond⟩ := List.mem_filter.mp ht
    obtain ⟨pdx, hpdx, hc⟩ := List.mem_map.mp hmem
    constructor
    · intro h0
      rw [h0] at hcond
      simp at hcond
    · rcases contentOf_cases key decodeOf oo pdx with hcc | ⟨s, hs⟩
      · rw [hc] at hcc
        rw [hcc] at hcond
        simp at hcond
      · exact ⟨s, by rw [← hc, hs]⟩
  · intro h
    rw [h]
    rfl

theorem process_branch_empty (pages : List Page) (key : Str) (decodeOf : Nat → CvOutcome)
    (oo : Nat → RemoteOracle) (co : RemoteOracle)
    (h0 : pyStrip (cleanRawText (joinSep pageSeparator
      (pipeGo key decodeOf oo (extractTextFromPdf pages).1).1)) = []) :
    process_document_to_cleaned_text pages key decodeOf oo co =
      ⟨none, some noTextErrMsg, [],
        (pipeGo key decodeOf oo (extractTextFromPdf pages).1).2⟩ := by
  simp only [process_document_to_cleaned_text]
  rw [if_pos h0]

theorem process_branch_err (pages : List Page) (key : Str) (decodeOf : Nat → CvOutcome)
    (oo : Nat → RemoteOracle) (co : RemoteOracle)
    (h0 : ¬ pyStrip (cleanRawText (joinSep pageSeparator
      (pipeGo key decodeOf oo (extractTextFromPdf pages).1).1)) = [])
    (hpre : errTag.isPrefixOf (clean_with_gemini co key).1 = true) :
    process_document_to_cleaned_text pages key decodeOf oo co =
      ⟨none, some (clean_with_gemini co key).1,
        [cleanRawText (joinSep pageSeparator
          (pipeGo key decodeOf oo (extractTextFromPdf pages).1).1)],
        (pipeGo key decodeOf oo (extractTextFromPdf pages).1).2⟩ := by
  simp only [process_document_to_cleaned_text]
  rw [if_neg h0, if_pos hpre]

theorem process_branch_ok (pages : List Page) (key : Str) (decodeOf : Nat → CvOutcome)
    (oo : Nat → RemoteOracle) (co : RemoteOracle)
    (h0 : ¬ pyStrip (cleanRawText (joinSep pageSeparator
      (pipeGo key decodeOf oo (extractTextFromPdf pages).1).1)) = [])
    (hpre : errTag.isPrefixOf (clean_with_gemini co key).1 = false) :
    process_document_to_cleaned_text pages key decodeOf oo co =
      ⟨some (clean_with_gemini co key).1, none,
        [cleanRawText (joinSep pageSeparator
          (pipeGo key decodeOf oo (extractTextFromPdf pages).1).1)],
        (pipeGo key decodeOf oo (extractTextFromPdf pages).1).2⟩ := by
  simp only [process_document_to_cleaned_text]
  rw [if_neg h0, if_neg (by simp [hpre])]

theorem process_ocrPages (pages : List Page) (key : Str) (decodeOf : Nat → CvOutcome)
    (oo : Nat → RemoteOracle) (co : RemoteOracle) :
    (process_document_to_cleaned_text pages key decodeOf oo co).ocrPages =
      (pipeGo key decodeOf oo (extractTextFromPdf pages).1).2 := by
  simp only [process_document_to_cleaned_text]
  split
  · rfl
  · split <;> rfl

theorem isPrefixOf_append_of {p a : Str} (b : Str) (h : p.isPrefixOf a = true) :
    p.isPrefixOf (a ++ b) = true := by
  rw [ List.isPrefixOf_iff_prefix] at h ⊢
  exact h.trans (List.prefix_append a b)

theorem cleanGo_ok {oracle : RemoteOracle} {a d f : Nat} {t : Str}
    (h : oracle a = .ok t) :
    cleanWithGeminiGo oracle a d (f + 1) = (pyStrip t, a, []) := by
  simp [cleanWithGeminiGo, h]

theorem cleanGo_err_last {oracle : RemoteOracle} {a d : Nat} {e : Str}
    (h : oracle a = .error e) :
    cleanWithGeminiGo oracle a d 1 = (cleanFailMsgPre ++ e, a, []) := by
  simp [cleanWithGeminiGo, h]

theorem cleanGo_err {oracle : RemoteOracle} {a d f : Nat} {e : Str}
    (h : oracle a = .error e) (hf : f ≠ 0) :
    cleanWithGeminiGo oracle a d (f + 1) =
      ((cleanWithGeminiGo oracle (a + 1) (d * 2) f).1,
        (cleanWithGeminiGo oracle (a + 1) (d * 2) f).2.1,
        d :: (cleanWithGeminiGo oracle (a + 1) (d * 2) f).2.2) := by
  simp [cleanWithGeminiGo, h, hf]

theorem ocrGo_ok {oracle : RemoteOracle} {a f : Nat} {t : Str}
    (h : oracle a = .ok t) :
    extractTextGeminiGo oracle a (f + 1) = (pyStrip t, a, []) := by
  simp [extractTextGeminiGo, h]

theorem ocrGo_err_last {oracle : RemoteOracle} {a : Nat} {e : Str}
    (h : oracle a = .error e) :
    extractTextGeminiGo oracle a 1 = ([], a, []) := by
  simp [extractTextGeminiGo, h]

theorem ocrGo_err {oracle : RemoteOracle} {a f : Nat} {e : Str}
    (h : oracle a = .error e) (hf : f ≠ 0) :
    extractTextGeminiGo oracle a (f + 1) =
      ((extractTextGeminiGo oracle (a + 1) f).1,
        (extractTextGeminiGo oracle (a + 1) f).2.1,
        2 :: (extractTextGeminiGo oracle (a + 1) f).2.2) := by
  simp [extractTextGeminiGo, h, hf]

theorem aiGo_ok {oracle : RemoteOracle} {a f : Nat} {t : Str}
    (h : oracle a = .ok t) :
    getAiGo oracle a (f + 1) = ((some (cleanFenceWrap (pyStrip t)), none), a + 1, []) := by
  simp [getAiGo, h]

theorem aiGo_err_last {oracle : RemoteOracle} {a : Nat} {e : Str}
    (h : oracle a = .error e) :
    getAiGo oracle a 1 =
      ((none, some (("Error connecting to AI after multiple retries: ").data ++ e)),
        a + 1, []) := by
  simp [getAiGo, h]

theorem aiGo_err {oracle : RemoteOracle} {a f : Nat} {e : Str}
    (h : oracle a = .error e) (hf : f ≠ 0) :
    getAiGo oracle a (f + 1) =
      ((getAiGo oracle (a + 1) f).1, (getAiGo oracle (a + 1) f).2.1,
        2 ^ a :: (getAiGo oracle (a + 1) f).2.2) := by
  simp [getAiGo, h, hf]

/-- C5 (amended): for each of the three remote-call retry loops
(`clean_with_gemini`, `extract_text_gemini`, `get_ai_response`), if the
call fails N-1 times and then succeeds on attempt N (N within the bound
of 3 attempts), the caller receives the successful reply (stripped, and
fence-cleaned for `get_ai_response`), exactly N attempts are made, and
the inter-attempt delays are monotonically non-decreasing; the delays
double each attempt (1s, 2s) for the cleaning and structuring calls but
are a constant 2 seconds for the OCR call. -/
theorem retry_success_attempts_and_delays
    (N : Nat) (hN1 : 1 ≤ N) (hN3 : N ≤ 3)
    (co oo go : RemoteOracle) (ce oe ge : Nat → Str) (t u v key : Str) (hk : key ≠ [])
    (hcf : ∀ i, 1 ≤ i → i < N → co i = .error (ce i)) (hcs : co N = .ok t)
    (hof : ∀ i, 1 ≤ i → i < N → oo i = .error (oe i)) (hos : oo N = .ok u)
    (hgf : ∀ i, i + 1 < N → go i = .error (ge i)) (hgs : go (N - 1) = .ok v) :
    clean_with_gemini co key = (pyStrip t, N, (List.range (N - 1)).map (fun i => 2 ^ i)) ∧
    extract_text_gemini oo key = (pyStrip u, N, List.replicate (N - 1) 2) ∧
    get_ai_response go key = ((some (cleanFenceWrap (pyStrip v)), none), N,
      (List.range (N - 1)).map (fun i => 2 ^ i)) ∧
    List.Chain' (fun a b => a ≤ b) ((List.range (N - 1)).map (fun i => 2 ^ i)) ∧
    List.Chain' (fun a b => a ≤ b) (List.replicate (N - 1) 2) := by
  interval_cases N
  · have hgs0 : go 0 = .ok v := by simpa using hgs
    refine ⟨?_, ?_, ?_, ?_, ?_⟩
    · show clean_with_gemini co key = (pyStrip t, 1, [])
      unfold clean_with_gemini
      rw [if_neg hk]
      simp [cleanWithGeminiGo, hcs]
    · show extract_text_gemini oo key = (pyStrip u, 1, [])
      unfold extract_text_gemini
      rw [if_neg hk]
      simp [extractTextGeminiGo, hos]
    · show get_ai_response go key = ((some (cleanFenceWrap (pyStrip v)), none), 1, [])
      unfold get_ai_response
      rw [if_neg hk]
      simp [getAiGo, hgs0]
    · show List.Chain' (fun a b => a ≤ b) ([] : List Nat)
      simp
    · show List.Chain' (fun a b => a ≤ b) ([] : List Nat)
      simp
  · have c1 := hcf 1 (by omega) (by omega)
    have o1 := hof 1 (by omega) (by omega)
    have g0 := hgf 0 (by omega)
    have hgs1 : go 1 = .ok v := by simpa using hgs
    refine ⟨?_, ?_, ?_, ?_, ?_⟩
    · show clean_with_gemini co key = (pyStrip t, 2, [1])
      unfold clean_with_gemini
      rw [if_neg hk]
      simp [cleanWithGeminiGo, c1, hcs]
    · show extract_text_gemini oo key = (pyStrip u, 2, [2])
      unfold extract_text_gemini
      rw [if_neg hk]
      simp [extractTextGeminiGo, o1, hos]
    · show get_ai_response go key = ((some (cleanFenceWrap (pyStrip v)), none), 2, [1])
      unfold get_ai_response
      rw [if_neg hk]
      simp [getAiGo, g0, hgs1]
    · show List.Chain' (fun a b => a ≤ b) [1]
      simp
    · show List.Chain' (fun a b => a ≤ b) [2]
      simp
  · have c1 := hcf 1 (by omega) (by omega)
    have c2 := hcf 2 (by omega) (by omega)
    have o1 := hof 1 (by omega) (by omega)
    have o2 := hof 2 (by omega) (by omega)
    have g0 := hgf 0 (by omega)
    have g1 := hgf 1 (by omega)
    have hgs2 : go 2 = .ok v := by simpa using hgs
    refine ⟨?_, ?_, ?_, ?_, ?_⟩
    · show clean_with_gemini co key = (pyStrip t, 3, [1, 2])
      unfold clean_with_gemini
      rw [if_neg hk]
      simp [cleanWithGeminiGo, c1, c2, hcs]
    · show extract_text_gemini oo key = (pyStrip u, 3, [2, 2])
      unfold extract_text_gemini
      rw [if_neg hk]
      simp [extractTextGeminiGo, o1, o2, hos]
    · show get_ai_response go key = ((some (cleanFenceWrap (pyStrip v)), none), 3, [1, 2])
      unfold get_ai_response
      rw [if_neg hk]
      simp [getAiGo, g0, g1, hgs2]
    · show List.Chain' (fun a b => a ≤ b) [1, 2]
      simp [List.chain'_cons]
    · show List.Chain' (fun a b => a ≤ b) [2, 2]
      simp [List.chain'_cons]

/-- C5 witness: a remote behaviour failing on the first two attempts and
succeeding on the third, with a non-empty API key, instantiates the
retry theorem at N = 3. -/
theorem retry_success_attempts_and_delays_witness :
    clean_with_gemini
        (fun i => if i < 3 then Except.error (("rate limit").data)
          else Except.ok (("cleaned").data)) (("k").data) =
      (pyStrip (("cleaned").data), 3, (List.range 2).map (fun i => 2 ^ i)) ∧
    extract_text_gemini
        (fun i => if i < 3 then Except.error (("rate limit").data)
          else Except.ok (("ocr text").data)) (("k").data) =
      (pyStrip (("ocr text").data), 3, List.replicate 2 2) ∧
    get_ai_response
        (fun i => if i < 2 then Except.error (("rate limit").data)
          else Except.ok (("structured").data)) (("k").data) =
      ((some (cleanFenceWrap (pyStrip (("structured").data))), none), 3,
        (List.range 2).map (fun i => 2 ^ i)) ∧
    List.Chain' (fun a b => a ≤ b) ((List.range 2).map (fun i => 2 ^ i)) ∧
    List.Chain' (fun a b => a ≤ b) (List.replicate 2 2) := by
  have h := retry_success_attempts_and_delays 3 (by omega) (by omega)
    (fun i => if i < 3 then Except.error (("rate limit").data)
      else Except.ok (("cleaned").data))
    (fun i => if i < 3 then Except.error (("rate limit").data)
      else Except.ok (("ocr text").data))
    (fun i => if i < 2 then Except.error (("rate limit").data)
      else Except.ok (("structured").data))
    (fun _ => ("rate limit").data) (fun _ => ("rate limit").data)
    (fun _ => ("rate limit").data)
    (("cleaned").data) (("ocr text").data) (("structured").data) (("k").data)
    (by decide)
    (by
      intro i h1 h2
      have hi : i = 1 ∨ i = 2 := by omega
      rcases hi with hi | hi <;> subst hi <;> rfl)
    (by rfl)
    (by
      intro i h1 h2
      have hi : i = 1 ∨ i = 2 := by omega
      rcases hi with hi | hi <;> subst hi <;> rfl)
    (by rfl)
    (by
      intro i h2
      have hi : i = 0 ∨ i = 1 := by omega
      rcases hi with hi | hi <;> subst hi <;> rfl)
    (by rfl)
  exact h

/-- C5 counterexample: the OCR retry loop `extract_text_gemini` inserts
a constant 2-second delay between attempts, so on a run that succeeds at
the third attempt the delays are [2, 2]: the second delay is not the
double of the first, refuting the claim that the base delay doubles each
attempt for every remote cleaning or OCR call. -/
theorem ocr_delay_not_doubling_cex :
    (extract_text_gemini
        (fun i => if i < 3 then Except.error (("rate limit").data)
          else Except.ok (("ocr text").data)) (("k").data)).2.2 = [2, 2] ∧
    ¬ (extract_text_gemini
        (fun i => if i < 3 then Except.error (("rate limit").data)
          else Except.ok (("ocr text").data)) (("k").data)).2.2 = [2, 2 * 2] := by
  decide

/-- C6 counterexample: on a remote error that is not a rate-limit error
(an invalid-payload error here), `extract_text_gemini` still makes all
3 attempts rather than failing immediately after a single attempt: the
source retries every exception indiscriminately. -/
theorem nontransient_error_retried_cex :
    (extract_text_gemini (fun _ => Except.error (("invalid image payload").data))
        (("k").data)).2.1 = 3 ∧
    ¬ (extract_text_gemini (fun _ => Except.error (("invalid image payload").data))
        (("k").data)).2.1 = 1 := by
  decide

/-- C7 (amended): the classifiers of core_document_processing.py and
classify_image_type.py terminate and return false (handwritten, the
robust remote-OCR path) on every internal failure - missing libraries,
undecodable bytes, or a raised exception; the variant in
core_document_generator.py instead returns true (digital) when its
libraries are missing or an exception is raised. -/
theorem classifier_failure_defaults :
    (∀ e, is_image_digital true (CvOutcome.fail e) = false) ∧
    is_image_digital true CvOutcome.noDecode = false ∧
    (∀ o, is_image_digital false o = false) ∧
    (∀ e, is_image_digital_cit (TessOutcome.fail e) = false) ∧
    (∀ e, is_image_digital_gen true (TessOutcome.fail e) = true) ∧
    (∀ o, is_image_digital_gen false o = true) :=
  ⟨fun _ => rfl, rfl, fun _ => rfl, fun _ => rfl, fun _ => rfl, fun _ => rfl⟩

/-- C7 counterexample: the `is_image_digital` variant in
core_document_generator.py returns true (DIGITAL) when classification
raises an exception, not the conservative HANDWRITTEN default the claim
states for every cited classifier. -/
theorem generator_classifier_digital_on_failure_cex :
    is_image_digital_gen true (TessOutcome.fail (("boom").data)) = true ∧
    ¬ is_image_digital_gen true (TessOutcome.fail (("boom").data)) = false := by
  decide

/-- C8 (amended): for every successfully decoded image, the classifier
the main pipeline uses (`is_image_digital` of
core_document_processing.py) returns DIGITAL exactly when the fraction
of edge pixels of the fixed-threshold Canny edge map exceeds 0.01; the
variants in classify_image_type.py and core_document_generator.py use
different decision rules. -/
theorem pipeline_classifier_threshold (edgeMap : List Nat) :
    is_image_digital true (CvOutcome.density edgeMap) = true ↔
      (1 : ℚ) / 100 <
        ((edgeMap.filter (fun v => decide (0 < v))).length : ℚ) / (edgeMap.length : ℚ) := by
  simp [is_image_digital, edgeDensity]

/-- C8 counterexample: the classifier of classify_image_type.py returns
HANDWRITTEN on an image whose edge density (0.2) exceeds 0.01, because
its rule requires the density to be below 0.12: the decision is not the
claimed 0.01 threshold comparison for that cited variant. -/
theorem cit_classifier_not_threshold_cex :
    (1 : ℚ) / 100 < edgeDensity (List.replicate 20 1 ++ List.replicate 80 0) ∧
    is_image_digital_cit (TessOutcome.ok (List.replicate 25 'a') [(60 : ℚ)]
      (List.replicate 20 1 ++ List.replicate 80 0)) = false := by
  have h20 : ((List.replicate 20 1 ++ List.replicate 80 0).filter
      (fun v => decide (0 < v))).length = 20 := by decide
  have h100 : (List.replicate 20 1 ++ List.replicate 80 0).length = 100 := by decide
  have hd : edgeDensity (List.replicate 20 1 ++ List.replicate 80 0) = 1 / 5 := by
    unfold edgeDensity
    rw [h20, h100]
    norm_num
  constructor
  · rw [hd]
    norm_num
  · simp only [is_image_digital_cit]
    rw [if_neg (by decide), if_neg (by simp)]
    rw [decide_eq_false_iff_not]
    rintro ⟨-, h2⟩
    rw [hd] at h2
    norm_num at h2

/-- C3 (code bug): the `update_structure` call of `run_blueprint_update`
(ui.py lines 209-213) passes 3 positional arguments while the callee
(core_document_generator.py line 401) declares 4 required parameters,
so the binding check fails and every invocation of the mutate callback
with a non-empty stored Blueprint aborts with an uncaught TypeError
before any remote call is made: no reply is ever received, the reply
handling of lines 215-227 is unreachable, the stored Blueprint keeps
its previous value, and the caller sees an uncaught exception instead
of the structuring-parse error the claim requires. -/
theorem blueprint_update_always_type_error :
    pyPositionalCallBinds updateStructureParamCount runBlueprintUpdateArgCount = false ∧
    ∀ (J : Type) (parse : Str → Option J) (dumps : J → Str) (blueprint : Str)
      (resp : Option Str × Option Str), blueprint ≠ [] →
      run_blueprint_update parse dumps blueprint resp =
        UiOutcome.uncaught updateStructureTypeErrorMsg := by
  refine ⟨rfl, ?_⟩
  intro J parse dumps blueprint resp hbp
  unfold run_blueprint_update
  rw [if_neg hbp, if_neg (by decide)]

/-- C3 witness: the concrete stored blueprint "[]" with a mutate reply
"not json" - the callback aborts with the TypeError, independent of the
reply. -/
theorem blueprint_update_always_type_error_witness :
    run_blueprint_update (fun s => if s = ("[]").data then some () else none)
      (fun _ => ("[]").data) (("[]").data) (some (("not json").data), none) =
      UiOutcome.uncaught updateStructureTypeErrorMsg :=
  blueprint_update_always_type_error.2 Unit
    (fun s => if s = ("[]").data then some () else none)
    (fun _ => ("[]").data) (("[]").data) (some (("not json").data), none)
    (by decide)

/-- C1 (amended): `extract_text_from_pdf` produces exactly one result per
page, holding the stripped digital text and no image when the
whitespace-free length of the embedded text exceeds 250 characters and a
rendered image and no text otherwise, and remote OCR is never invoked
for a page above the threshold; however, every page is rendered (the
source renders before the threshold check and merely discards the image
for digital pages), so the render trace always lists all pages. -/
theorem extract_results_shape_render_ocr :
    (∀ (pages : List Page),
      (extractTextFromPdf pages).1.length = pages.length ∧
      (extractTextFromPdf pages).2 = List.range' 1 pages.length) ∧
    (∀ (pages : List Page) (i : Nat) (p : Page), pages[i]? = some p →
      (extractTextFromPdf pages).1[i]? = some
        (if 250 < meaningfulLen p.rawText then (i + 1, some (pyStrip p.rawText), none)
          else (i + 1, none, some p.renderedB64))) ∧
    (∀ (pages : List Page) (key : Str) (decodeOf : Nat → CvOutcome)
      (oo : Nat → RemoteOracle) (co : RemoteOracle) (i : Nat) (p : Page),
      pages[i]? = some p → 250 < meaningfulLen p.rawText →
      (i + 1) ∉ (process_document_to_cleaned_text pages key decodeOf oo co).ocrPages) := by
  refine ⟨?_, ?_, ?_⟩
  · intro pages
    exact ⟨extractGo_length pages 1, extractGo_rendered pages 1⟩
  · intro pages i p h
    have hg := extractGo_get pages 1 i p h
    rw [show (1 : Nat) + i = i + 1 from by omega] at hg
    exact hg
  · intro pages key decodeOf oo co i p hp hlen hmem
    rw [process_ocrPages] at hmem
    obtain ⟨tr, htr, hfst, hfalse⟩ := pipeGo_ocr_mem key decodeOf oo _ _ hmem
    obtain ⟨j, pj, hj, htrr⟩ := extractGo_mem pages 1 tr htr
    rw [htrr, pageTriple_fst] at hfst
    have hji : j = i := by omega
    subst hji
    rw [hp] at hj
    have hpj : p = pj := Option.some.inj hj
    subst hpj
    rw [htrr] at hfalse
    unfold pageTriple at hfalse
    rw [if_pos hlen] at hfalse
    have hne : pyStrip p.rawText ≠ [] := by
      refine pyStrip_ne_nil ?_
      have hpos : 0 < (p.rawText.filter notWS).length := by
        unfold meaningfulLen at hlen
        omega
      exact fun hh => by rw [hh] at hpos; simp at hpos
    simp only [truthyOpt] at hfalse
    simp [List.isEmpty_iff] at hfalse
    exact hne hfalse

/-- C1 witness: a single page with 251 non-whitespace characters is
returned as digital text at index 0 and is absent from the OCR trace of
the pipeline. -/
theorem extract_results_shape_render_ocr_witness :
    (extractTextFromPdf [Page.mk (List.replicate 251 'a') (("img").data)]).1[0]? =
      some (1, some (pyStrip (List.replicate 251 'a')), none) ∧
    (1 : Nat) ∉ (process_document_to_cleaned_text
      [Page.mk (List.replicate 251 'a') (("img").data)] (("k").data)
      (fun _ => CvOutcome.noDecode) (fun _ _ => Except.ok (("o").data))
      (fun _ => Except.ok (("c").data))).ocrPages := by
  constructor
  · have h := extract_results_shape_render_ocr.2.1
      [Page.mk (List.replicate 251 'a') (("img").data)] 0
      (Page.mk (List.replicate 251 'a') (("img").data)) (by simp)
    rw [if_pos (by decide)] at h
    exact h
  · exact extract_results_shape_render_ocr.2.2
      [Page.mk (List.replicate 251 'a') (("img").data)] (("k").data)
      (fun _ => CvOutcome.noDecode) (fun _ _ => Except.ok (("o").data))
      (fun _ => Except.ok (("c").data)) 0
      (Page.mk (List.replicate 251 'a') (("img").data)) (by simp) (by decide)

/-- C1 counterexample: a page whose embedded text has 251 meaningful
characters is classified digital, yet its page number still appears in
the render trace: `extract_text_from_pdf` renders every page with
get_pixmap (line 62) before the threshold check, so rendering is not
skipped for digital pages, refuting the no-rendering-side-effect part of
the claim. -/
theorem digital_page_still_rendered_cex :
    250 < meaningfulLen (List.replicate 251 'a') ∧
    (extractTextFromPdf [Page.mk (List.replicate 251 'a') (("img").data)]).2 = [1] := by
  decide

/-- C2 (amended): the cleaning stage performs no chunking: the pipeline
joins all non-empty page contents, in original page order with none
reordered or duplicated (the payload is exactly the order-preserving
map of the per-page contents with empty ones omitted), and sends the
whole combined text to the remote cleaner in at most one call - exactly
one call when any page yielded text, zero calls (with a document-level
error) otherwise.  There is no ceil(n/k) partitioning into chunk
calls. -/
theorem single_cleaner_call_ordered (pages : List Page) (key : Str)
    (decodeOf : Nat → CvOutcome) (oo : Nat → RemoteOracle) (co : RemoteOracle) :
    (process_document_to_cleaned_text pages key decodeOf oo co).cleanerPayloads.length ≤ 1 ∧
    (∀ payload ∈ (process_document_to_cleaned_text pages key decodeOf oo co).cleanerPayloads,
      payload = cleanRawText (joinSep pageSeparator
        (((extractTextFromPdf pages).1.map (contentOf key decodeOf oo)).filter
          (fun t => !t.isEmpty)))) ∧
    ((process_document_to_cleaned_text pages key decodeOf oo co).cleanerPayloads.length = 1 ↔
      ((extractTextFromPdf pages).1.map (contentOf key decodeOf oo)).filter
        (fun t => !t.isEmpty) ≠ []) := by
  have hiff := stripCombined_eq_nil_iff key decodeOf oo (extractTextFromPdf pages).1
  have htexts := pipeGo_texts key decodeOf oo (extractTextFromPdf pages).1
  by_cases h0 : pyStrip (cleanRawText (joinSep pageSeparator
      (pipeGo key decodeOf oo (extractTextFromPdf pages).1).1)) = []
  · rw [process_branch_empty pages key decodeOf oo co h0]
    have hmf : ((extractTextFromPdf pages).1.map (contentOf key decodeOf oo)).filter
        (fun t => !t.isEmpty) = [] := by
      rw [← htexts]
      exact hiff.mp h0
    refine ⟨by simp, by simp, ?_⟩
    simp [hmf]
  · have hne : (pipeGo key decodeOf oo (extractTextFromPdf pages).1).1 ≠ [] :=
      fun hh => h0 (hiff.mpr hh)
    by_cases hpre : errTag.isPrefixOf (clean_with_gemini co key).1 = true
    · rw [process_branch_err pages key decodeOf oo co h0 hpre]
      refine ⟨by simp, ?_, ?_⟩
      · intro payload hp
        simp only [List.mem_singleton] at hp
        rw [hp, htexts]
      · constructor
        · intro _
          rw [← htexts]
          exact hne
        · intro _
          rfl
    · have hpre2 : errTag.isPrefixOf (clean_with_gemini co key).1 = false :=
        Bool.eq_false_iff.mpr hpre
      rw [process_branch_ok pages key decodeOf oo co h0 hpre2]
      refine ⟨by simp, ?_, ?_⟩
      · intro payload hp
        simp only [List.mem_singleton] at hp
        rw [hp, htexts]
      · constructor
        · intro _
          rw [← htexts]
          exact hne
        · intro _
          rfl

/-- C2 witness: a 12-page document in which remote OCR yields the text
"a" for every page makes exactly one cleaner call whose payload is the
cleaned join of the twelve page texts. -/
theorem single_cleaner_call_ordered_witness :
    (process_document_to_cleaned_text (List.replicate 12 (Page.mk [] (("i").data)))
        (("k").data) (fun _ => CvOutcome.noDecode) (fun _ _ => Except.ok (("a").data))
        (fun _ => Except.ok (("x").data))).cleanerPayloads.length ≤ 1 ∧
    cleanRawText (joinSep pageSeparator
        (((extractTextFromPdf (List.replicate 12 (Page.mk [] (("i").data)))).1.map
          (contentOf (("k").data) (fun _ => CvOutcome.noDecode)
            (fun _ _ => Except.ok (("a").data)))).filter (fun t => !t.isEmpty))) =
      cleanRawText (joinSep pageSeparator
        (((extractTextFromPdf (List.replicate 12 (Page.mk [] (("i").data)))).1.map
          (contentOf (("k").data) (fun _ => CvOutcome.noDecode)
            (fun _ _ => Except.ok (("a").data)))).filter (fun t => !t.isEmpty))) := by
  have h := single_cleaner_call_ordered (List.replicate 12 (Page.mk [] (("i").data)))
    (("k").data) (fun _ => CvOutcome.noDecode) (fun _ _ => Except.ok (("a").data))
    (fun _ => Except.ok (("x").data))
  refine ⟨h.1, ?_⟩
  exact h.2.1 _ (by decide)

/-- C2 counterexample: over a 12-page document whose every page yields
text, the code makes exactly one remote cleaner call, not
ceil(12/5) = 3 chunk calls: there is no chunk partitioning in
`process_document_to_cleaned_text`. -/
theorem twelve_pages_one_cleaner_call_cex :
    (process_document_to_cleaned_text (List.replicate 12 (Page.mk [] (("i").data)))
        (("k").data) (fun _ => CvOutcome.noDecode) (fun _ _ => Except.ok (("a").data))
        (fun _ => Except.ok (("x").data))).cleanerPayloads.length = 1 ∧
    (12 + 5 - 1) / 5 = 3 ∧ ¬ (1 : Nat) = 3 := by
  decide

/-- C4 (amended): with an API key present, the pipeline returns a
document-level labelled error when no page yielded any text, and also
exactly when the string returned by the cleaning step starts with the
bracketed ERROR tag - which happens both when cleaning exhausts its 3
retries and when a successful cleaning reply itself begins with that
tag; whenever at least one page yields text and the cleaner succeeds
with a reply not starting with the tag, the pipeline returns the cleaned
text with no error, regardless of how many individual pages produced no
text. -/
theorem pipeline_error_taxonomy (pages : List Page) (key : Str)
    (decodeOf : Nat → CvOutcome) (oo : Nat → RemoteOracle) (co : RemoteOracle)
    (hk : key ≠ []) :
    (pagesContents pages key decodeOf oo = [] →
      (process_document_to_cleaned_text pages key decodeOf oo co).text = none ∧
      (process_document_to_cleaned_text pages key decodeOf oo co).errMsg =
        some noTextErrMsg) ∧
    (∀ s, pagesContents pages key decodeOf oo ≠ [] → co 1 = .ok s →
      errTag.isPrefixOf (pyStrip s) = false →
      (process_document_to_cleaned_text pages key decodeOf oo co).text = some (pyStrip s) ∧
      (process_document_to_cleaned_text pages key decodeOf oo co).errMsg = none) ∧
    (∀ e1 e2 e3, pagesContents pages key decodeOf oo ≠ [] →
      co 1 = .error e1 → co 2 = .error e2 → co 3 = .error e3 →
      (process_document_to_cleaned_text pages key decodeOf oo co).text = none ∧
      (process_document_to_cleaned_text pages key decodeOf oo co).errMsg =
        some (cleanFailMsgPre ++ e3)) := by
  have hiff := stripCombined_eq_nil_iff key decodeOf oo (extractTextFromPdf pages).1
  refine ⟨?_, ?_, ?_⟩
  · intro ht
    rw [process_branch_empty pages key decodeOf oo co (hiff.mpr ht)]
    exact ⟨rfl, rfl⟩
  · intro s ht hok hpre
    have h0 : ¬ pyStrip (cleanRawText (joinSep pageSeparator
        (pipeGo key decodeOf oo (extractTextFromPdf pages).1).1)) = [] :=
      fun hh => ht (hiff.mp hh)
    have hclean : (clean_with_gemini co key).1 = pyStrip s := by
      unfold clean_with_gemini
      rw [if_neg hk]
      simp [cleanWithGeminiGo, hok]
    have hpre2 : errTag.isPrefixOf (clean_with_gemini co key).1 = false := by
      rw [hclean]
      exact hpre
    rw [process_branch_ok pages key decodeOf oo co h0 hpre2, hclean]
    exact ⟨rfl, rfl⟩
  · intro e1 e2 e3 ht h1 h2 h3
    have h0 : ¬ pyStrip (cleanRawText (joinSep pageSeparator
        (pipeGo key decodeOf oo (extractTextFromPdf pages).1).1)) = [] :=
      fun hh => ht (hiff.mp hh)
    have hclean : (clean_with_gemini co key).1 = cleanFailMsgPre ++ e3 := by
      unfold clean_with_gemini
      rw [if_neg hk]
      simp [cleanWithGeminiGo, h1, h2, h3]
    have hpre2 : errTag.isPrefixOf (clean_with_gemini co key).1 = true := by
      rw [hclean]
      exact isPrefixOf_append_of e3 (by decide)
    rw [process_branch_err pages key decodeOf oo co h0 hpre2, hclean]
    exact ⟨rfl, rfl⟩

/-- C4 witness: a one-page document whose OCR yields "a" and whose
cleaner succeeds with "clean text" returns the cleaned text with no
error. -/
theorem pipeline_error_taxonomy_witness :
    (process_document_to_cleaned_text [Page.mk [] (("i").data)] (("k").data)
      (fun _ => CvOutcome.noDecode) (fun _ _ => Except.ok (("a").data))
      (fun _ => Except.ok (("clean text").data))).text =
        some (pyStrip (("clean text").data)) ∧
    (process_document_to_cleaned_text [Page.mk [] (("i").data)] (("k").data)
      (fun _ => CvOutcome.noDecode) (fun _ _ => Except.ok (("a").data))
      (fun _ => Except.ok (("clean text").data))).errMsg = none :=
  (pipeline_error_taxonomy [Page.mk [] (("i").data)] (("k").data)
    (fun _ => CvOutcome.noDecode) (fun _ _ => Except.ok (("a").data))
    (fun _ => Except.ok (("clean text").data)) (by decide)).2.1
    (("clean text").data) (by decide) rfl (by decide)

/-- C4 counterexample: a page yields text and the remote cleaner
succeeds on its first attempt, yet because the successful reply happens
to begin with the bracketed ERROR tag the pipeline reports a
document-level failure (None plus the reply as the reason), refuting the
claim that success of the cleaning step guarantees a non-error
return. -/
theorem inband_error_reported_as_failure_cex :
    pagesContents [Page.mk [] (("i").data)] (("k").data) (fun _ => CvOutcome.noDecode)
      (fun _ _ => Except.ok (("a").data)) ≠ [] ∧
    (process_document_to_cleaned_text [Page.mk [] (("i").data)] (("k").data)
      (fun _ => CvOutcome.noDecode) (fun _ _ => Except.ok (("a").data))
      (fun _ => Except.ok (("[ERROR] odd but successful reply").data))).text = none ∧
    (process_document_to_cleaned_text [Page.mk [] (("i").data)] (("k").data)
      (fun _ => CvOutcome.noDecode) (fun _ _ => Except.ok (("a").data))
      (fun _ => Except.ok (("[ERROR] odd but successful reply").data))).errMsg =
      some (("[ERROR] odd but successful reply").data) := by
  decide

/-- C9: the pipeline signals cleaning failure purely in-band by string
prefix: it returns (None, message) exactly when no page content remains
(the combined extracted text is empty) or the string returned by the
cleaner starts with the bracketed ERROR tag; consequently a successful
remote cleaning reply that itself begins with the tag is reported to the
caller as a document-level failure carrying that reply. -/
theorem pipeline_inband_error_iff (pages : List Page) (key : Str)
    (decodeOf : Nat → CvOutcome) (oo : Nat → RemoteOracle) (co : RemoteOracle) :
    ((process_document_to_cleaned_text pages key decodeOf oo co).text = none ∧
      (process_document_to_cleaned_text pages key decodeOf oo co).errMsg.isSome = true ↔
      (pagesContents pages key decodeOf oo = [] ∨
        errTag.isPrefixOf (clean_with_gemini co key).1 = true)) ∧
    (∀ s, key ≠ [] → pagesContents pages key decodeOf oo ≠ [] → co 1 = .ok s →
      errTag.isPrefixOf (pyStrip s) = true →
      (process_document_to_cleaned_text pages key decodeOf oo co).text = none ∧
      (process_document_to_cleaned_text pages key decodeOf oo co).errMsg =
        some (pyStrip s)) := by
  have hiff := stripCombined_eq_nil_iff key decodeOf oo (extractTextFromPdf pages).1
  constructor
  · by_cases h0 : pyStrip (cleanRawText (joinSep pageSeparator
        (pipeGo key decodeOf oo (extractTextFromPdf pages).1).1)) = []
    · rw [process_branch_empty pages key decodeOf oo co h0]
      have ht : pagesContents pages key decodeOf oo = [] := hiff.mp h0
      simp [ht]
    · have ht : pagesContents pages key decodeOf oo ≠ [] := fun hh => h0 (hiff.mpr hh)
      by_cases hpre : errTag.isPrefixOf (clean_with_gemini co key).1 = true
      · rw [process_branch_err pages key decodeOf oo co h0 hpre]
        simp [hpre]
      · have hpre2 : errTag.isPrefixOf (clean_with_gemini co key).1 = false :=
          Bool.eq_false_iff.mpr hpre
        rw [process_branch_ok pages key decodeOf oo co h0 hpre2]
        simp [ht, hpre2]
  · intro s hk ht hok hpre
    have h0 : ¬ pyStrip (cleanRawText (joinSep pageSeparator
        (pipeGo key decodeOf oo (extractTextFromPdf pages).1).1)) = [] :=
      fun hh => ht (hiff.mp hh)
    have hclean : (clean_with_gemini co key).1 = pyStrip s := by
      unfold clean_with_gemini
      rw [if_neg hk]
      simp [cleanWithGeminiGo, hok]
    have hpre2 : errTag.isPrefixOf (clean_with_gemini co key).1 = true := by
      rw [hclean]
      exact hpre
    rw [process_branch_err pages key decodeOf oo co h0 hpre2, hclean]
    exact ⟨rfl, rfl⟩

/-- C9 witness: a one-page document with OCR text "a" and a cleaner
whose successful reply starts with the bracketed ERROR tag is reported
as a document-level failure carrying that reply. -/
theorem pipeline_inband_error_iff_witness :
    (process_document_to_cleaned_text [Page.mk [] (("i").data)] (("k").data)
      (fun _ => CvOutcome.noDecode) (fun _ _ => Except.ok (("a").data))
      (fun _ => Except.ok (("[ERROR] tagged reply").data))).text = none ∧
    (process_document_to_cleaned_text [Page.mk [] (("i").data)] (("k").data)
      (fun _ => CvOutcome.noDecode) (fun _ _ => Except.ok (("a").data))
      (fun _ => Except.ok (("[ERROR] tagged reply").data))).errMsg =
      some (pyStrip (("[ERROR] tagged reply").data)) :=
  (pipeline_inband_error_iff [Page.mk [] (("i").data)] (("k").data)
    (fun _ => CvOutcome.noDecode) (fun _ _ => Except.ok (("a").data))
    (fun _ => Except.ok (("[ERROR] tagged reply").data))).2
    (("[ERROR] tagged reply").data) (by decide) (by decide) rfl (by decide)

/-- C6 (amended): a remote OCR call that keeps failing - with any error,
transient or not, since the source retries every exception
indiscriminately - is retried up to 3 attempts with a fixed 2-second
delay and then returns the empty string; the failure is absorbed
per-page (the failing page contributes no text) and the rest of the
document is still processed, so a later digital page still reaches the
cleaner and the pipeline still succeeds. -/
theorem ocr_failure_retried_and_absorbed (oo1 : RemoteOracle) (err : Nat → Str)
    (key : Str) (hk : key ≠ [])
    (hfail : ∀ i, 1 ≤ i → i ≤ 3 → oo1 i = .error (err i)) :
    extract_text_gemini oo1 key = ([], 3, [2, 2]) ∧
    ∀ (scan dig : Page) (decodeOf : Nat → CvOutcome) (co : RemoteOracle) (w : Str),
      scan.renderedB64 ≠ [] → meaningfulLen scan.rawText ≤ 250 →
      250 < meaningfulLen dig.rawText → co 1 = .ok w →
      errTag.isPrefixOf (pyStrip w) = false →
      process_document_to_cleaned_text [scan, dig] key decodeOf (fun _ => oo1) co =
        ⟨some (pyStrip w), none, [cleanRawText (pyStrip dig.rawText)], [1]⟩ := by
  have hocr : extract_text_gemini oo1 key = ([], 3, [2, 2]) := by
    unfold extract_text_gemini
    rw [if_neg hk]
    simp [extractTextGeminiGo, hfail 1 (by omega) (by omega), hfail 2 (by omega) (by omega),
      hfail 3 (by omega) (by omega)]
  refine ⟨hocr, ?_⟩
  intro scan dig decodeOf co w himg hscan hdig hok hpre
  have hkb : key.isEmpty = false := by
    cases key with
    | nil => exact absurd rfl hk
    | cons a b => rfl
  have himgb : scan.renderedB64.isEmpty = false := by
    cases hsb : scan.renderedB64 with
    | nil => exact absurd hsb himg
    | cons a b => rfl
  have hdigne : pyStrip dig.rawText ≠ [] := by
    refine pyStrip_ne_nil ?_
    have hpos : 0 < (dig.rawText.filter notWS).length := by
      unfold meaningfulLen at hdig
      omega
    exact fun hh => by rw [hh] at hpos; simp at hpos
  have hdignb : (pyStrip dig.rawText).isEmpty = false := by
    cases hdb : pyStrip dig.rawText with
    | nil => exact absurd hdb hdigne
    | cons a b => rfl
  have hnot : ¬ 250 < meaningfulLen scan.rawText := by omega
  have hpd : (extractTextFromPdf [scan, dig]).1 =
      [(1, none, some scan.renderedB64), (2, some (pyStrip dig.rawText), none)] := by
    simp [extractTextFromPdf, extractGo, pageTriple, hnot, hdig]
  have hfold : pipeGo key decodeOf (fun _ => oo1)
      [(1, none, some scan.renderedB64), (2, some (pyStrip dig.rawText), none)] =
      ([pyStrip dig.rawText], [1]) := by
    simp [pipeGo, contentOf, ocrInvoked, truthyOpt, hkb, himgb, hdignb, hocr, hk,
      pyStrip_idem, show pyStrip ([] : Str) = [] from rfl]
  have h0 : ¬ pyStrip (cleanRawText (joinSep pageSeparator
      (pipeGo key decodeOf (fun _ => oo1) (extractTextFromPdf [scan, dig]).1).1)) = [] := by
    rw [hpd, hfold]
    show ¬ pyStrip (cleanRawText (pyStrip dig.rawText)) = []
    rw [pyStrip_cleanRawText]
    intro hh
    have hft := filter_cleanRawText (pyStrip dig.rawText)
    rw [hh, filter_pyStrip] at hft
    have hlen : (dig.rawText.filter notWS).length = 0 := by rw [← hft]; rfl
    unfold meaningfulLen at hdig
    omega
  have hclean : (clean_with_gemini co key).1 = pyStrip w := by
    unfold clean_with_gemini
    rw [if_neg hk]
    simp [cleanWithGeminiGo, hok]
  have hpre2 : errTag.isPrefixOf (clean_with_gemini co key).1 = false := by
    rw [hclean]
    exact hpre
  rw [process_branch_ok [scan, dig] key decodeOf (fun _ => oo1) co h0 hpre2, hclean,
    hpd, hfold]
  rfl

/-- C6 witness: an OCR oracle failing three times with a non-transient
error, a scanned page and a digital page of 251 characters: the OCR call
returns empty after 3 attempts and the pipeline still delivers the
cleaned text. -/
theorem ocr_failure_retried_and_absorbed_witness :
    extract_text_gemini (fun _ => Except.error (("invalid image payload").data))
      (("k").data) = ([], 3, [2, 2]) ∧
    process_document_to_cleaned_text
      [Page.mk [] (("img").data), Page.mk (List.replicate 251 'a') (("i2").data)]
      (("k").data) (fun _ => CvOutcome.noDecode)
      (fun _ => fun _ => Except.error (("invalid image payload").data))
      (fun _ => Except.ok (("done").data)) =
      ⟨some (pyStrip (("done").data)), none,
        [cleanRawText (pyStrip (List.replicate 251 'a'))], [1]⟩ := by
  have h := ocr_failure_retried_and_absorbed
    (fun _ => Except.error (("invalid image payload").data))
    (fun _ => ("invalid image payload").data) (("k").data) (by decide)
    (fun _ _ _ => rfl)
  exact ⟨h.1, h.2 (Page.mk [] (("img").data)) (Page.mk (List.replicate 251 'a') (("i2").data))
    (fun _ => CvOutcome.noDecode) (fun _ => Except.ok (("done").data)) (("done").data)
    (by decide) (by decide) (by decide) rfl (by decide)⟩

/-- C10: `_clean_raw_text` (collapse runs of three or more newlines to two,
then strip surrounding whitespace) is idempotent: applying it twice gives
the same result as applying it once. -/
theorem clean_raw_text_idempotent (s : Str) :
    cleanRawText (cleanRawText s) = cleanRawText s := by
  unfold cleanRawText
  have h1 : noTriple (collapseNewlines s) = true := noTriple_collapseGo s 0
  have h2 : noTriple (pyStrip (collapseNewlines s)) = true :=
    noTriple_stripRight (noTriple_stripLeft h1)
  rw [collapseNewlines_of_noTriple h2, pyStrip_idem]

end PdfToText
